import Mathlib

/-!
Shallow embedding of the tint colorized slog handler (handler.go, logger.go)
and proofs of the specification claims about it.

Buffers ([]byte in Go) are modelled as lists of characters; the small
standard-library helpers the handler calls (unicode tables, strconv quoting,
filepath splitting) are modelled next to the code that uses them, with the
modelling choices documented at each definition.
-/

namespace Tint

/-- A byte buffer ([]byte / the pooled buffer type), modelled as a character list. -/
abbrev Buf := List Char

-- ANSI mode strings (handler.go, const block)
def ansiReset : String := "\x1b[0m"

def ansiFaint : String := "\x1b[2m"

def ansiResetFaint : String := "\x1b[22m"

def ansiBrightRed : String := "\x1b[91m"

def ansiBrightGreen : String := "\x1b[92m"

def ansiBrightYellow : String := "\x1b[93m"

def ansiBrightRedFaint : String := "\x1b[91;2m"

def ansiBrightBlue : String := "\x1b[34;1m"

def errKey : String := "err"

-- slog.Level constants (log/slog): Debug -4, Info 0, Warn 4, Error 8.
def levelDebug : Int := -4

def levelInfo : Int := 0

def levelWarn : Int := 4

def levelError : Int := 8

/-- Model of buf.WriteStringIf(cond, s) of the buffer helper file (not under src/).
Modelled from the spec: §4.1 describes the buffer as a plain byte sequence
(pooling is a pure optimization), so WriteStringIf appends `s` iff the flag holds. -/
def writeStringIf (b : Bool) (s : String) : Buf := if b then s.data else []

/-- Model of Go `unicode.IsSpace` (the Unicode White_Space property, a small
closed code-point list, reproduced exactly). -/
def isSpace (c : Char) : Bool :=
  let n := c.toNat
  (9 ≤ n && n ≤ 13) || n == 32 || n == 0x85 || n == 0xA0 || n == 0x1680 ||
  (0x2000 ≤ n && n ≤ 0x200A) || n == 0x2028 || n == 0x2029 || n == 0x202F ||
  n == 0x205F || n == 0x3000

/-- Model of Go `unicode.IsPrint`: exact on the Latin-1 range (printable means
0x20..0x7E, or 0xA1..0xFF except the soft hyphen 0xAD); above Latin-1 the full
Unicode category tables are approximated by "printable unless a White_Space
separator". No theorem below depends on which specific characters above
Latin-1 are printable, only on the structure of the quoting decision. -/
def isPrint (c : Char) : Bool :=
  let n := c.toNat
  if n < 0x100 then
    (0x20 ≤ n && n ≤ 0x7E) || (0xA1 ≤ n && n ≤ 0xFF && n != 0xAD)
  else !(isSpace c)

/-- handler.go needsQuoting: the empty string, or any rune that is a space,
a double quote, an equals sign, or not printable, forces quoting. -/
def needsQuoting (s : String) : Bool :=
  if s.length == 0 then true
  else s.data.any fun r => isSpace r || r == '"' || r == '=' || !(isPrint r)

/-- A lowercase hex digit, as strconv's escape paths emit them. -/
def lowerHexDig (n : Nat) : Char := "0123456789abcdef".data.getD (n % 16) '0'

/-- The `w` lowercase hex digits of `n`, most significant first. -/
def hexPad (w n : Nat) : Buf := (List.range w).reverse.map fun i => lowerHexDig (n / 16 ^ i)

/-- One rune of Go strconv.Quote (strconv's appendEscapedRune with quote '"'):
quote and backslash get a backslash escape, printable runes pass through, the
named control escapes come next, and everything else becomes a \x, \u or \U
hex escape. (Lean's Char excludes invalid runes, so the invalid-rune branch
of the Go code cannot arise in the model.) -/
def quoteRune (r : Char) : Buf :=
  if r == '"' || r == '\\' then ['\\', r]
  else if isPrint r then [r]
  else if r == '\x07' then ['\\', 'a']
  else if r == '\x08' then ['\\', 'b']
  else if r == '\x0c' then ['\\', 'f']
  else if r == '\n' then ['\\', 'n']
  else if r == '\r' then ['\\', 'r']
  else if r == '\t' then ['\\', 't']
  else if r == '\x0b' then ['\\', 'v']
  else if r.toNat < 0x20 || r.toNat == 0x7F then ['\\', 'x'] ++ hexPad 2 r.toNat
  else if r.toNat < 0x10000 then ['\\', 'u'] ++ hexPad 4 r.toNat
  else ['\\', 'U'] ++ hexPad 8 r.toNat

/-- Go strconv.AppendQuote: the quoted form of `s` (the bytes appended). -/
def goQuote (s : String) : Buf := ('"' :: s.data.flatMap quoteRune) ++ ['"']

/-- handler.go appendString (the bytes appended). -/
def appendStringS (s : String) (quote : Bool) : Buf :=
  if quote && needsQuoting s then goQuote s else s.data

/-- handler.go appendLevelDelta (the bytes appended): nothing for zero,
a '+' sign for positive deltas, strconv.AppendInt for the digits. -/
def appendLevelDeltaS (delta : Int) : Buf :=
  if delta = 0 then []
  else (if delta > 0 then ['+'] else []) ++ (toString delta).data

/-- A resolved call site (slog.Source). -/
structure Source where
  function : String
  file : String
  line : Int
deriving DecidableEq

/-- Go time.Time, modelled by exactly what the formatter observes of it:
whether it IsZero, its AppendFormat rendering for a layout, and its String()
form. (r.Time.Round(0) only strips the monotonic reading, which the model
does not carry.) -/
structure GoTime where
  isZero : Bool
  fmtWith : String → String
  toStr : String

mutual
/-- slog.Value, restricted to the kinds the handler distinguishes. Kinds
whose text comes from library formatting outside this repository (float64 via
strconv.AppendFloat, Duration.String, fmt.Sprint for opaque values, a
TextMarshaler's output) carry that already-produced text; `anyNil` is the
zero Value (KindAny holding nil), `anyErr` is a value wrapped in the tint
Error marker, and `anyMarshal none` is a TextMarshaler whose MarshalText
returned an error. -/
inductive Value where
  | str (s : String)
  | int (i : Int)
  | uint (n : Nat)
  | float (repr : String)
  | bool (b : Bool)
  | duration (repr : String)
  | time (t : GoTime)
  | group (attrs : List Attr)
  | anyLevel (l : Int)
  | anyMarshal (res : Option String)
  | anySource (src : Source)
  | anyErr (msg : String)
  | anyNil
  | anyOther (repr : String)

/-- slog.Attr: a key and a value. -/
inductive Attr where
  | mk (key : String) (value : Value)
end

def Attr.key : Attr → String
  | .mk k _ => k

def Attr.value : Attr → Value
  | .mk _ v => v

/-- The Handler of handler.go. The writer is modelled by an identity `w`
(derived Handlers share it by reference); the per-Handler sync.Mutex is a
value field in Go (clone gives each derived Handler a fresh one) and carries
no formatting behavior, so it is not modelled. slog.Leveler is modelled by
the fixed Level() it reports. -/
structure Handler where
  attrsPre : Buf
  groupPre : String
  groups : List String
  w : Nat
  addSource : Bool
  level : Int
  replaceAttr : Option (List String → Attr → Attr)
  timeFormat : String
  noColor : Bool
  skip : Int

/-- Options of handler.go. -/
structure Options where
  addSource : Bool
  level : Option Int
  replaceAttr : Option (List String → Attr → Attr)
  timeFormat : String
  noColor : Bool
  skip : Int

def defaultLevel : Int := levelInfo

/-- time.DateTime, the default TimeFormat. -/
def defaultTimeFormat : String := "2006-01-02 15:04:05"

/-- handler.go NewHandler. -/
def NewHandler (w : Nat) (opts : Option Options) : Handler :=
  let h : Handler :=
    { attrsPre := [], groupPre := "", groups := [], w := w, addSource := false,
      level := defaultLevel, replaceAttr := none, timeFormat := defaultTimeFormat,
      noColor := false, skip := 0 }
  match opts with
  | none => h
  | some o =>
    { h with
      addSource := o.addSource
      level := o.level.getD h.level
      replaceAttr := o.replaceAttr
      timeFormat := if o.timeFormat ≠ "" then o.timeFormat else h.timeFormat
      noColor := o.noColor
      skip := if o.skip > 0 then o.skip else 4 }

/-- handler.go clone: the listed fields are copied, the writer is shared.
It copies neither the mutex nor `skip`; the new Handler gets Go's zero
value 0 for skip. -/
def Handler.clone (h : Handler) : Handler :=
  { attrsPre := h.attrsPre, groupPre := h.groupPre, groups := h.groups,
    w := h.w, addSource := h.addSource, level := h.level,
    replaceAttr := h.replaceAttr, timeFormat := h.timeFormat,
    noColor := h.noColor, skip := 0 }

/-- handler.go Enabled. -/
def Handler.enabled (h : Handler) (level : Int) : Bool := decide (level ≥ h.level)

def Handler.wIf (h : Handler) (s : String) : Buf := writeStringIf (!h.noColor) s

/-- handler.go appendTime (the bytes appended). -/
def Handler.appendTimeS (h : Handler) (t : GoTime) : Buf :=
  h.wIf ansiFaint ++ (t.fmtWith h.timeFormat).data ++ h.wIf ansiReset

/-- handler.go appendLevel (the bytes appended). -/
def Handler.appendLevelS (h : Handler) (level : Int) : Buf :=
  if level < levelInfo then
    h.wIf ansiBrightBlue ++ "DEBUG".data ++ appendLevelDeltaS (level - levelDebug) ++ h.wIf ansiReset
  else if level < levelWarn then
    h.wIf ansiBrightGreen ++ "INFO".data ++ appendLevelDeltaS (level - levelInfo) ++ h.wIf ansiReset
  else if level < levelError then
    h.wIf ansiBrightYellow ++ "WARN".data ++ appendLevelDeltaS (level - levelWarn) ++ h.wIf ansiReset
  else
    h.wIf ansiBrightRed ++ "ERROR".data ++ appendLevelDeltaS (level - levelError) ++ h.wIf ansiReset

/-- filepath.Split (slash separators): dir keeps its trailing slash. -/
def filepathSplit (p : String) : String × String :=
  let rev := p.data.reverse
  let file := (rev.takeWhile (· ≠ '/')).reverse
  let dir := (rev.dropWhile (· ≠ '/')).reverse
  (⟨dir⟩, ⟨file⟩)

/-- filepath.Base (slash separators, no volume names). -/
def filepathBase (p : String) : String :=
  if p = "" then "."
  else
    let l := p.data.reverse.dropWhile (· == '/')
    if l = [] then "/"
    else ⟨(l.takeWhile (· ≠ '/')).reverse⟩

/-- filepath.Join of the two pieces appendSource joins; filepath.Clean is
modelled for the shapes filepath.Base can produce ("." and "/"), which is all
Join's cleaning changes on already-clean inputs. -/
def filepathJoin2 (dir file : String) : String :=
  if dir = "." then file
  else if dir = "/" then "/" ++ file
  else dir ++ "/" ++ file

/-- handler.go appendSource (the bytes appended). -/
def Handler.appendSourceS (h : Handler) (src : Source) : Buf :=
  let df := filepathSplit src.file
  h.wIf ansiFaint ++ (filepathJoin2 (filepathBase df.1) df.2).data ++ [':']
    ++ (toString src.line).data ++ h.wIf ansiReset

/-- handler.go appendKey (the bytes appended). -/
def Handler.appendKeyS (h : Handler) (key groupsPre : String) : Buf :=
  h.wIf ansiFaint ++ appendStringS (groupsPre ++ key) true ++ ['='] ++ h.wIf ansiReset

/-- handler.go appendError (the bytes appended); the error is modelled by
its Error() text. -/
def Handler.appendErrorS (h : Handler) (errMsg : String) (groupsPre : String) : Buf :=
  h.wIf ansiBrightRedFaint ++ appendStringS (groupsPre ++ errKey) true ++ ['=']
    ++ h.wIf ansiResetFaint ++ appendStringS errMsg true ++ h.wIf ansiReset

/-- handler.go appendValue (the bytes appended). The KindAny type switch is
mirrored case by case; a TextMarshaler whose MarshalText failed appends
nothing (the `break`); a value of an unlisted kind (the Go switch's default,
e.g. a group reaching appendValue) appends nothing. fmt.Sprint(nil) is
"<nil>". -/
def Handler.appendValueS (h : Handler) (v : Value) (quote : Bool) : Buf :=
  match v with
  | .str s => appendStringS s quote
  | .int i => (toString i).data
  | .uint n => (toString n).data
  | .float r => r.data
  | .bool b => (if b then "true" else "false").data
  | .duration r => appendStringS r quote
  | .time t => appendStringS t.toStr quote
  | .anyLevel l => h.appendLevelS l
  | .anyMarshal none => []
  | .anyMarshal (some data) => appendStringS data quote
  | .anySource src => h.appendSourceS src
  | .anyErr e => appendStringS e quote
  | .anyNil => appendStringS "<nil>" quote
  | .anyOther r => appendStringS r quote
  | .group _ => []

/-- attr.Equal(slog.Attr{}): the zero slog.Attr has key "" and the zero
Value (KindAny holding nil); Value.Equal first compares kinds, so only a
KindAny-nil value can equal the zero value. -/
def attrIsEmpty (a : Attr) : Bool :=
  match a.value with
  | .anyNil => a.key == ""
  | _ => false

def Value.isGrp : Value → Bool
  | .group _ => true
  | _ => false

/-- Value.Resolve only acts on LogValuer values, which the model does not
include, so it is the identity here. -/
def resolveV (v : Value) : Value := v

/-- The Resolve / ReplaceAttr steps at the top of appendAttr: resolve, then
(when a hook is set and the value is not a group) rewrite and resolve again. -/
def Handler.applyRep (h : Handler) (gs : List String) (a : Attr) : Attr :=
  let a := Attr.mk a.key (resolveV a.value)
  match h.replaceAttr with
  | some rep =>
    if a.value.isGrp then a
    else
      let a2 := rep gs a
      Attr.mk a2.key (resolveV a2.value)
  | none => a

/-- handler.go appendAttr (the bytes appended). The Go recursion into groups
is unbounded (a ReplaceAttr hook rewriting non-group children into new groups
makes it diverge); `fuel` bounds that group-descent depth and every theorem
quantifies over it. For any record whose (hook-rewritten) group nesting is
shallower than the fuel, the model agrees with the Go code exactly. -/
def Handler.appendAttrF (h : Handler) (fuel : Nat) (a : Attr) (gp : String) (gs : List String) : Buf :=
  let a1 := h.applyRep gs a
  if attrIsEmpty a1 then []
  else
    match a1.value with
    | .group children =>
      let gp' := if a1.key ≠ "" then gp ++ a1.key ++ "." else gp
      let gs' := if a1.key ≠ "" then gs ++ [a1.key] else gs
      (match fuel with
       | 0 => []
       | fuel' + 1 => (children.map fun c => h.appendAttrF fuel' c gp' gs').flatten)
    | .anyErr e => h.appendErrorS e gp ++ [' ']
    | v => h.appendKeyS a1.key gp ++ h.appendValueS v true ++ [' ']

/-- A run of appendAttr calls into one buffer (the loops in Handle's
r.Attrs callback and in WithAttrs). -/
def Handler.appendAttrsF (h : Handler) (fuel : Nat) (l : List Attr) (gp : String) (gs : List String) : Buf :=
  (l.map fun a => h.appendAttrF fuel a gp gs).flatten

-- Reserved slog keys used by Handle's pseudo-attribute hook calls.
def slogTimeKey : String := "time"

def slogLevelKey : String := "level"

def slogMessageKey : String := "msg"

def slogSourceKey : String := "source"

/-- One structured record (slog.Record). The program counter is modelled by
the call site that runtime.CallersFrames resolves from it (Handle's only use
of r.PC). -/
structure Record where
  time : GoTime
  level : Int
  message : String
  src : Source
  attrs : List Attr

/-- The timestamp block of Handle, with its trailing separator: skipped for
a zero time; formatted by appendTime when no hook is set; otherwise the hook
sees (slog.TimeKey, the time) and an empty returned key drops the field,
a KindTime result goes through appendTime and anything else through
appendValue. (r.Time.Round(0) only strips the monotonic reading.) -/
def Handler.timeField (h : Handler) (r : Record) : Buf :=
  if r.time.isZero then []
  else
    match h.replaceAttr with
    | none => h.appendTimeS r.time ++ [' ']
    | some rep =>
      let a := rep [] (Attr.mk slogTimeKey (Value.time r.time))
      if a.key ≠ "" then
        (match a.value with
         | .time t => h.appendTimeS t
         | v => h.appendValueS v false) ++ [' ']
      else []

/-- The level block of Handle, with its trailing separator. -/
def Handler.levelField (h : Handler) (r : Record) : Buf :=
  match h.replaceAttr with
  | none => h.appendLevelS r.level ++ [' ']
  | some rep =>
    let a := rep [] (Attr.mk slogLevelKey (Value.anyLevel r.level))
    if a.key ≠ "" then h.appendValueS a.value false ++ [' '] else []

/-- The source-location block of Handle, with its trailing separator:
only when AddSource is set and the resolved frame has a file. -/
def Handler.sourceField (h : Handler) (r : Record) : Buf :=
  if h.addSource then
    if r.src.file ≠ "" then
      match h.replaceAttr with
      | none => h.appendSourceS r.src ++ [' ']
      | some rep =>
        let a := rep [] (Attr.mk slogSourceKey (Value.anySource r.src))
        if a.key ≠ "" then h.appendValueS a.value false ++ [' '] else []
    else []
  else []

/-- The message block of Handle, with its trailing separator; with no hook
the message is written raw. -/
def Handler.msgField (h : Handler) (r : Record) : Buf :=
  match h.replaceAttr with
  | none => r.message.data ++ [' ']
  | some rep =>
    let a := rep [] (Attr.mk slogMessageKey (Value.str r.message))
    if a.key ≠ "" then h.appendValueS a.value false ++ [' '] else []

/-- The full buffer Handle renders, in Handle's order: time, level, source,
message, the handler-bound attribute bytes, then the record attributes. -/
def Handler.handleBuf (h : Handler) (fuel : Nat) (r : Record) : Buf :=
  h.timeField r ++ h.levelField r ++ h.sourceField r ++ h.msgField r
    ++ h.attrsPre ++ h.appendAttrsF fuel r.attrs h.groupPre h.groups

/-- handler.go Handle, up to the write: none when the buffer is empty
(nothing is written and nil is returned); otherwise the bytes handed to the
writer, the last byte overwritten by a newline. -/
def Handler.handle (h : Handler) (fuel : Nat) (r : Record) : Option Buf :=
  let buf := h.handleBuf fuel r
  if buf = [] then none else some (buf.dropLast ++ ['\n'])

/-- Handle's returned error given the writer: nil when nothing is written,
otherwise whatever the single h.w.Write call returns. -/
def Handler.handleWrite (h : Handler) (write : Buf → Option String) (fuel : Nat) (r : Record) :
    Option String :=
  match h.handle fuel r with
  | none => none
  | some b => write b

/-- handler.go WithAttrs: self for an empty list; otherwise a clone whose
attrsPrefix is the parent's plus the attrs rendered in the parent's group
context. -/
def Handler.WithAttrs (h : Handler) (fuel : Nat) (attrs : List Attr) : Handler :=
  if attrs.isEmpty then h
  else
    let h2 := h.clone
    { h2 with attrsPre := h.attrsPre ++ h.appendAttrsF fuel attrs h.groupPre h.groups }

/-- handler.go WithGroup: self for the empty name; otherwise a clone with the
name appended to the dotted prefix and pushed on the group stack. -/
def Handler.WithGroup (h : Handler) (name : String) : Handler :=
  if name = "" then h
  else
    let h2 := h.clone
    { h2 with groupPre := h2.groupPre ++ name ++ ".", groups := h2.groups ++ [name] }

/-- handler.go Err: a non-nil error is wrapped in the Error marker before
slog.Any; a nil error is passed to slog.Any untouched, giving the zero-kind
nil value. Errors are modelled by their Error() text (none = nil). -/
def Err : Option String → Attr
  | some e => Attr.mk errKey (Value.anyErr e)
  | none => Attr.mk errKey Value.anyNil

/-- Three zero-padded decimal digits. -/
def pad3 (n : Nat) : String :=
  if n < 10 then "00" ++ toString n
  else if n < 100 then "0" ++ toString n
  else toString n

/-- Model of fmt.Sprintf("%.3fms", float64(elapsed.Nanoseconds())/1e6): the
nanosecond count shown as milliseconds with exactly three decimals. The
float64 division and fmt's decimal rounding are modelled as exact integer
rounding (half away from zero) of the microsecond count; they agree except on
exact half-microsecond ties, where the binary float is itself inexact. Trace
only ever passes a non-negative elapsed time. -/
def formatMs (ns : Int) : String :=
  let t : Int := (ns + 500).tdiv 1000
  toString (t.tdiv 1000) ++ "." ++ pad3 (t.emod 1000).toNat ++ "ms"

/-- handler.go Handler.Trace. time.Now, time.Since(begin) and the resolved
call site are ambient effects in Go and are inputs here; the gorm callback fc
is passed through. The result is the Handle write (none when the Info gate
fails, in which case Handle is never called). -/
def Handler.traceS (h : Handler) (fuel : Nat) (now : GoTime) (src : Source)
    (elapsedNs : Int) (fc : Unit → String × Int) (err : Option String) : Option Buf :=
  if h.enabled levelInfo then
    let sr := fc ()
    let withErr : List Attr := match err with | some e => [Err (some e)] | none => []
    let tail : List Attr :=
      if sr.2 = -1 then
        [Attr.mk "time" (Value.str (formatMs elapsedNs)), Attr.mk "sql" (Value.str "-")]
      else
        [Attr.mk "time" (Value.str (formatMs elapsedNs)), Attr.mk "sql" (Value.str sr.1)]
    h.handle fuel
      { time := now, level := levelInfo, message := "", src := src, attrs := withErr ++ tail }
  else none

/-- handler.go Handler.Warn: gated on LevelWarn but the record it builds is
NewRecord(now, slog.LevelInfo, "", pc) with the message as a "msg" attribute.
slog.Record.Add's key-value pairing is modelled by pre-paired `extra` attrs. -/
def Handler.warnS (h : Handler) (fuel : Nat) (now : GoTime) (src : Source)
    (s : String) (extra : List Attr) : Option Buf :=
  if h.enabled levelWarn then
    h.handle fuel
      { time := now, level := levelInfo, message := "", src := src,
        attrs := Attr.mk slogMessageKey (Value.str s) :: extra }
  else none

/-- handler.go Handler.Error: gated on LevelError but the record it builds is
NewRecord(now, slog.LevelInfo, "", pc), like Warn. -/
def Handler.errorS (h : Handler) (fuel : Nat) (now : GoTime) (src : Source)
    (s : String) (extra : List Attr) : Option Buf :=
  if h.enabled levelError then
    h.handle fuel
      { time := now, level := levelInfo, message := "", src := src,
        attrs := Attr.mk slogMessageKey (Value.str s) :: extra }
  else none

/-- logger.go Logger: embeds the Handler (the embedded slog.Logger is built
over the same Handler and adds no state the adapter methods read). -/
structure Logger where
  handler : Handler

/-- logger.go Logger.Warn (same body as Handler.Warn, via the embedded Handler). -/
def Logger.warnS (l : Logger) (fuel : Nat) (now : GoTime) (src : Source)
    (s : String) (extra : List Attr) : Option Buf :=
  if l.handler.enabled levelWarn then
    l.handler.handle fuel
      { time := now, level := levelInfo, message := "", src := src,
        attrs := Attr.mk slogMessageKey (Value.str s) :: extra }
  else none

/-- logger.go Logger.Error (same body as Handler.Error). -/
def Logger.errorS (l : Logger) (fuel : Nat) (now : GoTime) (src : Source)
    (s : String) (extra : List Attr) : Option Buf :=
  if l.handler.enabled levelError then
    l.handler.handle fuel
      { time := now, level := levelInfo, message := "", src := src,
        attrs := Attr.mk slogMessageKey (Value.str s) :: extra }
  else none

/-- logger.go Logger.Trace (same body as Handler.Trace). -/
def Logger.traceS (l : Logger) (fuel : Nat) (now : GoTime) (src : Source)
    (elapsedNs : Int) (fc : Unit → String × Int) (err : Option String) : Option Buf :=
  if l.handler.enabled levelInfo then
    let sr := fc ()
    let withErr : List Attr := match err with | some e => [Err (some e)] | none => []
    let tail : List Attr :=
      if sr.2 = -1 then
        [Attr.mk "time" (Value.str (formatMs elapsedNs)), Attr.mk "sql" (Value.str "-")]
      else
        [Attr.mk "time" (Value.str (formatMs elapsedNs)), Attr.mk "sql" (Value.str sr.1)]
    l.handler.handle fuel
      { time := now, level := levelInfo, message := "", src := src, attrs := withErr ++ tail }
  else none

/-! ### Sample values used by concrete witnesses and counterexamples -/

/-- The zero time.Time (IsZero, renders nothing). -/
def tZero : GoTime := ⟨true, fun _ => "", ""⟩

/-- An unresolved call site (empty file). -/
def srcEmpty : Source := ⟨"", "", 0⟩

/-- NewHandler over writer 0 with nil options, color disabled. -/
def hNC : Handler := { NewHandler 0 none with noColor := true }

/-- A sample record: zero time, Info, message "hello", one string attribute. -/
def rSample : Record := ⟨tZero, 0, "hello", srcEmpty, [Attr.mk "addr" (Value.str ":8080")]⟩

/-! ### Block-shape helpers: every emitted block ends in its one separator space -/

/-- A rendered block is either empty or is its content followed by the single
separator space the formatter writes after each emitted field. -/
def EndsSp (b : Buf) : Prop := b = [] ∨ ∃ p, b = p ++ [' ']

theorem endsSp_append {a b : Buf} (ha : EndsSp a) (hb : EndsSp b) : EndsSp (a ++ b) := by
  rcases hb with rfl | ⟨p, rfl⟩
  · simpa using ha
  · exact Or.inr ⟨a ++ p, by simp⟩

theorem endsSp_flatten (L : List Buf) (hL : ∀ b ∈ L, EndsSp b) : EndsSp L.flatten := by
  induction L with
  | nil => exact Or.inl rfl
  | cons x xs ih =>
    simp only [List.flatten_cons]
    exact endsSp_append (hL x (by simp)) (ih fun b hb => hL b (by simp [hb]))

theorem timeField_endsSp (h : Handler) (r : Record) : EndsSp (h.timeField r) := by
  unfold Handler.timeField
  dsimp only
  repeat' split
  all_goals first
    | exact Or.inl rfl
    | exact Or.inr ⟨_, rfl⟩

theorem levelField_endsSp (h : Handler) (r : Record) : EndsSp (h.levelField r) := by
  unfold Handler.levelField
  dsimp only
  repeat' split
  all_goals first
    | exact Or.inl rfl
    | exact Or.inr ⟨_, rfl⟩

theorem sourceField_endsSp (h : Handler) (r : Record) : EndsSp (h.sourceField r) := by
  unfold Handler.sourceField
  dsimp only
  repeat' split
  all_goals first
    | exact Or.inl rfl
    | exact Or.inr ⟨_, rfl⟩

theorem msgField_endsSp (h : Handler) (r : Record) : EndsSp (h.msgField r) := by
  unfold Handler.msgField
  dsimp only
  repeat' split
  all_goals first
    | exact Or.inl rfl
    | exact Or.inr ⟨_, rfl⟩

theorem appendAttrF_endsSp (h : Handler) :
    ∀ (fuel : Nat) (a : Attr) (gp : String) (gs : List String),
      EndsSp (h.appendAttrF fuel a gp gs) := by
  intro fuel
  induction fuel with
  | zero =>
    intro a gp gs
    unfold Handler.appendAttrF
    dsimp only
    repeat' split
    all_goals first
      | exact Or.inl rfl
      | exact Or.inr ⟨_, rfl⟩
  | succ f ih =>
    intro a gp gs
    unfold Handler.appendAttrF
    dsimp only
    repeat' split
    all_goals first
      | exact Or.inl rfl
      | exact Or.inr ⟨_, rfl⟩
      | exact endsSp_flatten _ (by
          intro b hb
          simp only [List.mem_map] at hb
          obtain ⟨c, _, rfl⟩ := hb
          exact ih c _ _)

theorem appendAttrsF_endsSp (h : Handler) (fuel : Nat) (l : List Attr) (gp : String)
    (gs : List String) : EndsSp (h.appendAttrsF fuel l gp gs) := by
  unfold Handler.appendAttrsF
  refine endsSp_flatten _ ?_
  intro b hb
  simp only [List.mem_map] at hb
  obtain ⟨c, _, rfl⟩ := hb
  exact appendAttrF_endsSp h fuel c gp gs

/-! ### C7 -/

/-- C7: WithAttrs applied to an empty attribute list and WithGroup applied to
the empty string are identities: each returns the receiver itself. -/
theorem with_empty_attrs_group_identity (h : Handler) (fuel : Nat) :
    h.WithAttrs fuel [] = h ∧ h.WithGroup "" = h :=
  ⟨rfl, rfl⟩

/-! ### C4 -/

/-- C4 (amended): deriving via WithAttrs (non-empty attrs) or WithGroup
(non-empty name) never mutates the parent (derivation is a pure function of
the parent value here) and yields a Handler equal to the parent in every
field — same writer `w`, level, time format, color flag, source flag and
replace hook — except the extended attribute prefix (WithAttrs) or the
extended group prefix and stack (WithGroup), and except the skip count,
which clone does not copy: the derived Handler's skip is 0. -/
theorem derive_copies_state_shares_writer (h : Handler) (fuel : Nat) (attrs : List Attr)
    (name : String) (hattrs : attrs ≠ []) (hname : name ≠ "") :
    h.WithAttrs fuel attrs
      = { h with attrsPre := h.attrsPre ++ h.appendAttrsF fuel attrs h.groupPre h.groups,
                 skip := 0 }
  ∧ h.WithGroup name
      = { h with groupPre := h.groupPre ++ name ++ ".", groups := h.groups ++ [name],
                 skip := 0 } := by
  have h1 : attrs.isEmpty = false := by
    cases attrs with
    | nil => exact absurd rfl hattrs
    | cons a l => rfl
  constructor
  · rw [Handler.WithAttrs, if_neg (by simp [h1])]
    rfl
  · rw [Handler.WithGroup, if_neg hname]
    rfl


/-- Witness for C4 at a concrete handler, attribute list and group name. -/
theorem derive_copies_state_shares_writer_witness :
    (([Attr.mk "a" (Value.str "b")] : List Attr) ≠ []) ∧ (("g" : String) ≠ "")
  ∧ (hNC.WithAttrs 1 [Attr.mk "a" (Value.str "b")]
      = { hNC with
          attrsPre := (hNC.attrsPre ++ hNC.appendAttrsF 1 [Attr.mk "a" (Value.str "b")] hNC.groupPre hNC.groups),
          skip := 0 }
    ∧ hNC.WithGroup "g"
      = { hNC with groupPre := hNC.groupPre ++ "g" ++ ".", groups := hNC.groups ++ ["g"],
                   skip := 0 }) :=
  ⟨by simp, by decide,
   derive_copies_state_shares_writer hNC 1 [Attr.mk "a" (Value.str "b")] "g" (by simp) (by decide)⟩

/-- C4 counterexample: the claim says the skip count is copied on derivation,
but clone omits it — a handler built with skip 7 derives a handler with skip 0. -/
def hSkip7 : Handler := NewHandler 0 (some ⟨false, none, none, "", false, 7⟩)

/-- C4 counterexample theorem: skip is 7 on the parent and 0 on the derived
Handler, so it is not copied. -/
theorem derive_skip_not_copied_cex :
    hSkip7.skip = 7 ∧ (hSkip7.WithGroup "g").skip = 0
  ∧ ¬((hSkip7.WithGroup "g").skip = hSkip7.skip) :=
  ⟨rfl, rfl, by decide⟩

/-! ### C9 -/

/-- C9: the Warn and Error adapter methods, on both Handler and Logger, gate
on their nominal level (Warn / Error) but the record they synthesize and hand
to Handle carries LevelInfo, not the nominal level; a concrete Warn call on a
Warn-gated handler renders an INFO line. -/
theorem warn_error_record_tagged_info (h : Handler) (lg : Logger) (fuel : Nat) (now : GoTime)
    (src : Source) (s : String) (extra : List Attr) :
    h.warnS fuel now src s extra =
      (if h.enabled levelWarn then
        h.handle fuel
          { time := now, level := levelInfo, message := "", src := src,
            attrs := Attr.mk slogMessageKey (Value.str s) :: extra }
      else none)
  ∧ h.errorS fuel now src s extra =
      (if h.enabled levelError then
        h.handle fuel
          { time := now, level := levelInfo, message := "", src := src,
            attrs := Attr.mk slogMessageKey (Value.str s) :: extra }
      else none)
  ∧ lg.warnS fuel now src s extra =
      (if lg.handler.enabled levelWarn then
        lg.handler.handle fuel
          { time := now, level := levelInfo, message := "", src := src,
            attrs := Attr.mk slogMessageKey (Value.str s) :: extra }
      else none)
  ∧ lg.errorS fuel now src s extra =
      (if lg.handler.enabled levelError then
        lg.handler.handle fuel
          { time := now, level := levelInfo, message := "", src := src,
            attrs := Attr.mk slogMessageKey (Value.str s) :: extra }
      else none)
  ∧ levelInfo ≠ levelWarn ∧ levelInfo ≠ levelError
  ∧ ({ hNC with level := levelWarn } : Handler).warnS 1 tZero srcEmpty "x" []
      = some "INFO  msg=x\n".data :=
  ⟨rfl, rfl, rfl, rfl, by decide, by decide, by decide⟩

/-! ### C10 -/

/-- C10: Err nil leaves the nil error unwrapped (no Error marker), so it takes
appendAttr's generic path — ordinary key styling and the default "<nil>" text —
while Err of a non-nil error wraps it and takes the distinguished appendError
path. -/
theorem err_nil_generic_path (h : Handler) (fuel : Nat) (gp : String) (gs : List String)
    (e : String) (hrep : h.replaceAttr = none) :
    Err none = Attr.mk errKey Value.anyNil
  ∧ Err (some e) = Attr.mk errKey (Value.anyErr e)
  ∧ h.appendAttrF fuel (Err none) gp gs
      = h.appendKeyS errKey gp ++ h.appendValueS Value.anyNil true ++ [' ']
  ∧ h.appendValueS Value.anyNil true = "<nil>".data
  ∧ h.appendAttrF fuel (Err (some e)) gp gs = h.appendErrorS e gp ++ [' '] := by
  refine ⟨rfl, rfl, ?_, rfl, ?_⟩
  · simp [Handler.appendAttrF, Handler.applyRep, hrep, resolveV, Err, attrIsEmpty,
      Attr.key, Attr.value, errKey]
  · simp [Handler.appendAttrF, Handler.applyRep, hrep, resolveV, Err, attrIsEmpty,
      Attr.key, Attr.value, errKey]

/-- Witness for C10 at a concrete hook-free handler and error text. -/
theorem err_nil_generic_path_witness :
    hNC.replaceAttr = none
  ∧ (Err none = Attr.mk errKey Value.anyNil
    ∧ Err (some "boom") = Attr.mk errKey (Value.anyErr "boom")
    ∧ hNC.appendAttrF 1 (Err none) "" []
        = hNC.appendKeyS errKey "" ++ hNC.appendValueS Value.anyNil true ++ [' ']
    ∧ hNC.appendValueS Value.anyNil true = "<nil>".data
    ∧ hNC.appendAttrF 1 (Err (some "boom")) "" [] = hNC.appendErrorS "boom" "" ++ [' ']) :=
  ⟨rfl, err_nil_generic_path hNC 1 "" [] "boom" rfl⟩

/-! ### C8 -/

/-- A record holding an attribute whose TextMarshaler fails. -/
def rMarsh : Record := ⟨tZero, 0, "m", srcEmpty, [Attr.mk "k" (Value.anyMarshal none)]⟩

/-- C8: a failing MarshalText is swallowed: the value renders as nothing (the
attribute renders as its key, '=', and the separator, with an empty value),
and Handle's result is an error only if the writer errs — formatting a record
containing such an attribute never produces one. -/
theorem marshal_failure_swallowed (h : Handler) (fuel : Nat) (k gp : String)
    (gs : List String) (q : Bool) (r : Record) (hrep : h.replaceAttr = none) :
    h.appendValueS (Value.anyMarshal none) q = []
  ∧ h.appendAttrF fuel (Attr.mk k (Value.anyMarshal none)) gp gs
      = h.appendKeyS k gp ++ [' ']
  ∧ (∀ write : Buf → Option String, (∀ b, write b = none) →
      h.handleWrite write fuel r = none) := by
  refine ⟨rfl, ?_, ?_⟩
  · simp [Handler.appendAttrF, Handler.applyRep, hrep, resolveV, attrIsEmpty,
      Attr.key, Attr.value, Handler.appendValueS]
  · intro write hw
    unfold Handler.handleWrite
    cases hcase : h.handle fuel r with
    | none => rfl
    | some b => simp [hcase, hw b]

/-- Witness for C8 at a concrete handler and record. -/
theorem marshal_failure_swallowed_witness :
    hNC.replaceAttr = none
  ∧ (hNC.appendValueS (Value.anyMarshal none) true = []
    ∧ hNC.appendAttrF 1 (Attr.mk "k" (Value.anyMarshal none)) "" []
        = hNC.appendKeyS "k" "" ++ [' ']
    ∧ (∀ write : Buf → Option String, (∀ b, write b = none) →
        hNC.handleWrite write 1 rMarsh = none)) :=
  ⟨rfl, marshal_failure_swallowed hNC 1 "k" "" [] true rMarsh rfl⟩

/-! ### C5 -/

/-- A hook rewriting every attribute to an empty key with a non-empty value. -/
def repEmptyKey : List String → Attr → Attr := fun _ _ => Attr.mk "" (Value.str "x")

/-- hNC with the repEmptyKey hook installed. -/
def hEmptyKey : Handler := { hNC with replaceAttr := some repEmptyKey }

/-- A record with one plain string attribute. -/
def rC5 : Record := ⟨tZero, 0, "hello", srcEmpty, [Attr.mk "k" (Value.str "v")]⟩

/-- A hook rewriting every attribute to the zero attribute (empty key and
zero value). -/
def repToNil : List String → Attr → Attr := fun _ _ => Attr.mk "" Value.anyNil

/-- hNC with the repToNil hook installed. -/
def hToNil : Handler := { hNC with replaceAttr := some repToNil }

/-- C5 counterexample: a hook returning an attribute with an empty key but a
non-zero value does NOT suppress the field — appendAttr renders it (as the
quoted empty key, '=', and the value) and it reaches the output line. -/
theorem replace_empty_key_not_suppressed_cex :
    hEmptyKey.appendAttrF 1 (Attr.mk "k" (Value.str "v")) "" [] = "\"\"=x ".data
  ∧ ¬(hEmptyKey.appendAttrF 1 (Attr.mk "k" (Value.str "v")) "" [] = [])
  ∧ hEmptyKey.handle 1 rC5 = some "\"\"=x\n".data :=
  ⟨by decide, by decide, by decide⟩

/-- Helper: rebuilding an attribute from its key and resolved value does not
change the zero-attribute test. -/
theorem attrIsEmpty_remk (x : Attr) :
    attrIsEmpty (Attr.mk x.key (resolveV x.value)) = attrIsEmpty x := by
  obtain ⟨k, v⟩ := x
  rfl

/-- Helper: with a hook installed and a non-group value, applyRep is the hook
followed by the (identity) resolve. -/
theorem applyRep_some (h : Handler) (rep : List String → Attr → Attr) (gs : List String)
    (a : Attr) (hrep : h.replaceAttr = some rep) (hng : a.value.isGrp = false) :
    h.applyRep gs a = Attr.mk (rep gs a).key (resolveV (rep gs a).value) := by
  obtain ⟨k, v⟩ := a
  unfold Handler.applyRep
  rw [hrep]
  simp only [Attr.value] at hng
  dsimp only [resolveV, Attr.key, Attr.value]
  rw [hng]
  exact rfl

/-- Helper: appendAttr emits nothing when the rewritten attribute equals the
zero slog.Attr. -/
theorem appendAttrF_of_empty (h : Handler) (fuel : Nat) (a : Attr) (gp : String)
    (gs : List String) (hz : attrIsEmpty (h.applyRep gs a) = true) :
    h.appendAttrF fuel a gp gs = [] := by
  unfold Handler.appendAttrF
  dsimp only
  rw [hz]
  exact rfl

/-- C5 (amended): a non-group field is suppressed entirely iff the hook's
returned attribute equals the zero slog.Attr — empty key AND zero value; an
empty key alone (with a non-zero value) is not enough (see the
counterexample). -/
theorem replace_zero_attr_suppresses (h : Handler) (fuel : Nat)
    (rep : List String → Attr → Attr) (a : Attr) (gp : String) (gs : List String)
    (hrep : h.replaceAttr = some rep) (hng : a.value.isGrp = false)
    (hz : attrIsEmpty (rep gs a) = true) :
    h.appendAttrF fuel a gp gs = [] := by
  refine appendAttrF_of_empty h fuel a gp gs ?_
  rw [applyRep_some h rep gs a hrep hng, attrIsEmpty_remk, hz]

/-- Witness for C5's amended theorem at a concrete hook and attribute. -/
theorem replace_zero_attr_suppresses_witness :
    hToNil.replaceAttr = some repToNil
  ∧ (Attr.mk "k" (Value.str "v")).value.isGrp = false
  ∧ attrIsEmpty (repToNil [] (Attr.mk "k" (Value.str "v"))) = true
  ∧ hToNil.appendAttrF 1 (Attr.mk "k" (Value.str "v")) "" [] = [] :=
  ⟨rfl, rfl, rfl,
   replace_zero_attr_suppresses hToNil 1 repToNil (Attr.mk "k" (Value.str "v")) "" [] rfl rfl rfl⟩

/-! ### C3 -/

/-- The level text as spec §4.2 words it (spec-side definition, for comparison
with appendLevel): the band name — below Info "DEBUG", below Warn "INFO",
below Error "WARN", otherwise "ERROR" — then a signed numeric offset suffix
exactly when the level differs from the band's canonical value. -/
def specLevelText (l : Int) : String :=
  let band :=
    if l < levelInfo then "DEBUG" else if l < levelWarn then "INFO"
    else if l < levelError then "WARN" else "ERROR"
  let canon :=
    if l < levelInfo then levelDebug else if l < levelWarn then levelInfo
    else if l < levelError then levelWarn else levelError
  let d := l - canon
  band ++ (if d = 0 then "" else if d > 0 then "+" ++ toString d else toString d)

/-- The band color of spec §4.2 (blue/green/yellow/red). -/
def specLevelColor (l : Int) : String :=
  if l < levelInfo then ansiBrightBlue else if l < levelWarn then ansiBrightGreen
  else if l < levelError then ansiBrightYellow else ansiBrightRed

/-- Helper: the band-plus-suffix string's characters are the band's followed
by appendLevelDelta's output. -/
theorem band_suffix_data (band : String) (d : Int) :
    (band ++ (if d = 0 then "" else if d > 0 then "+" ++ toString d else toString d)).data
      = band.data ++ appendLevelDeltaS d := by
  unfold appendLevelDeltaS
  split_ifs with h1 h2
  · simp
  · simp [String.data_append]
  · simp [String.data_append]

/-- C3: appendLevel renders the §4.2 band text (DEBUG below Info, INFO below
Warn, WARN below Error, ERROR otherwise) in the band's color, with no delta
suffix at the band's canonical value and a signed offset otherwise; in
particular Error+1 renders ERROR+1 and Warn+2 renders WARN+2. -/
theorem appendLevel_band_rendering (h : Handler) (l : Int) :
    h.appendLevelS l = h.wIf (specLevelColor l) ++ (specLevelText l).data ++ h.wIf ansiReset
  ∧ hNC.appendLevelS levelWarn = "WARN".data
  ∧ hNC.appendLevelS (levelError + 1) = "ERROR+1".data
  ∧ hNC.appendLevelS (levelWarn + 2) = "WARN+2".data := by
  refine ⟨?_, by decide, by decide, by decide⟩
  unfold Handler.appendLevelS specLevelColor specLevelText
  dsimp only
  rw [band_suffix_data]
  split_ifs with h1 h2 h3 <;> simp [List.append_assoc]

/-! ### C2 -/

/-- Scan for unescaped double quotes: a backslash consumes the following
character; an unconsumed double quote means some quote is not escaped. -/
def quotesEscaped : Buf → Bool
  | [] => true
  | c :: rest =>
    if c = '\\' then
      match rest with
      | [] => true
      | _ :: rest2 => quotesEscaped rest2
    else if c = '"' then false
    else quotesEscaped rest

/-- Helper: a backslash-escape pair passes the scanner. -/
theorem quotesEscaped_esc (x : Char) (rest : Buf) :
    quotesEscaped ('\\' :: x :: rest) = quotesEscaped rest := by
  simp [quotesEscaped]

/-- Helper: a character that is neither backslash nor quote passes the scanner. -/
theorem quotesEscaped_safeChar (c : Char) (rest : Buf) (h1 : c ≠ '\\') (h2 : c ≠ '"') :
    quotesEscaped (c :: rest) = quotesEscaped rest := by
  rw [quotesEscaped.eq_def]
  dsimp only
  rw [if_neg h1, if_neg h2]

/-- Helper: a run of backslash-free, quote-free characters passes the scanner. -/
theorem quotesEscaped_append_safe (ds rest : Buf)
    (hd : ∀ c ∈ ds, c ≠ '\\' ∧ c ≠ '"') :
    quotesEscaped (ds ++ rest) = quotesEscaped rest := by
  induction ds with
  | nil => rfl
  | cons c ds ih =>
    have hc := hd c (by simp)
    rw [List.cons_append, quotesEscaped_safeChar c _ hc.1 hc.2]
    exact ih fun x hx => hd x (by simp [hx])

/-- Helper: hex digits are neither backslash nor quote. -/
theorem lowerHexDig_safe (n : Nat) : lowerHexDig n ≠ '\\' ∧ lowerHexDig n ≠ '"' := by
  have hb : ∀ k, k < 16 →
      ("0123456789abcdef".data.getD k '0' ≠ '\\' ∧ "0123456789abcdef".data.getD k '0' ≠ '"') := by
    decide
  exact hb (n % 16) (Nat.mod_lt _ (by norm_num))

/-- Helper: every character of a hex escape's digits is safe. -/
theorem hexPad_safe (w n : Nat) : ∀ c ∈ hexPad w n, c ≠ '\\' ∧ c ≠ '"' := by
  intro c hc
  unfold hexPad at hc
  simp only [List.mem_map] at hc
  obtain ⟨i, _, rfl⟩ := hc
  exact lowerHexDig_safe _

/-- Helper: each escaped rune leaves no unescaped quote behind. -/
theorem quoteRune_escapes (r : Char) (rest : Buf) :
    quotesEscaped (quoteRune r ++ rest) = quotesEscaped rest := by
  unfold quoteRune
  by_cases hq : (r == '"' || r == '\\') = true
  · rw [if_pos hq]; exact quotesEscaped_esc r rest
  rw [if_neg hq]
  by_cases hp : isPrint r = true
  · rw [if_pos hp]
    have hne : ¬(r = '"' ∨ r = '\\') := by simpa using hq
    exact quotesEscaped_safeChar r rest (fun h => hne (Or.inr h)) (fun h => hne (Or.inl h))
  rw [if_neg hp]
  by_cases h7 : (r == '\x07') = true
  · rw [if_pos h7]; exact quotesEscaped_esc _ _
  rw [if_neg h7]
  by_cases h8 : (r == '\x08') = true
  · rw [if_pos h8]; exact quotesEscaped_esc _ _
  rw [if_neg h8]
  by_cases hf : (r == '\x0c') = true
  · rw [if_pos hf]; exact quotesEscaped_esc _ _
  rw [if_neg hf]
  by_cases hn : (r == '\n') = true
  · rw [if_pos hn]; exact quotesEscaped_esc _ _
  rw [if_neg hn]
  by_cases hr : (r == '\r') = true
  · rw [if_pos hr]; exact quotesEscaped_esc _ _
  rw [if_neg hr]
  by_cases ht : (r == '\t') = true
  · rw [if_pos ht]; exact quotesEscaped_esc _ _
  rw [if_neg ht]
  by_cases hv : (r == '\x0b') = true
  · rw [if_pos hv]; exact quotesEscaped_esc _ _
  rw [if_neg hv]
  by_cases hx : (decide (r.toNat < 0x20) || r.toNat == 0x7F) = true
  · rw [if_pos hx]
    exact (quotesEscaped_esc 'x' _).trans (quotesEscaped_append_safe _ _ (hexPad_safe 2 _))
  rw [if_neg hx]
  by_cases hu : r.toNat < 0x10000
  · rw [if_pos hu]
    exact (quotesEscaped_esc 'u' _).trans (quotesEscaped_append_safe _ _ (hexPad_safe 4 _))
  · rw [if_neg hu]
    exact (quotesEscaped_esc 'U' _).trans (quotesEscaped_append_safe _ _ (hexPad_safe 8 _))

/-- Helper: the interior of a Go-quoted string contains no unescaped quote. -/
theorem body_escapes (l : List Char) : quotesEscaped (l.flatMap quoteRune) = true := by
  induction l with
  | nil => rfl
  | cons c l ih => rw [List.flatMap_cons, quoteRune_escapes]; exact ih

/-- C2: quoting is applied iff the string is empty or has a character that is
whitespace, a double quote, an equals sign, or non-printable; all other
strings pass through raw; and the quoted form is the open quote, the escaped
body (in which every double quote is escaped), and the close quote. -/
theorem string_quoting_rule (s : String) :
    needsQuoting s
      = (s.data.isEmpty || s.data.any fun c => isSpace c || c == '"' || c == '=' || !(isPrint c))
  ∧ appendStringS s true = (if needsQuoting s then goQuote s else s.data)
  ∧ goQuote s = ('"' :: s.data.flatMap quoteRune) ++ ['"']
  ∧ quotesEscaped (s.data.flatMap quoteRune) = true := by
  refine ⟨?_, ?_, rfl, body_escapes s.data⟩
  · obtain ⟨l⟩ := s
    cases l with
    | nil => rfl
    | cons c l => rfl
  · unfold appendStringS
    rw [Bool.true_and]

/-! ### C6 -/

/-- C6: a Trace call that passes the Info gate hands Handle a record whose
sql attribute is the literal "-" exactly when the row count is -1 and the
literal SQL text otherwise, whose time attribute is the elapsed nanoseconds
as a millisecond figure with three decimals, and which carries the
distinguished (Error-wrapped) err attribute exactly when an error was given;
Logger.Trace behaves identically. -/
theorem trace_sql_time_err (h : Handler) (fuel : Nat) (now : GoTime) (src : Source)
    (elapsedNs : Int) (sql : String) (rows : Int) (err : Option String)
    (hgate : h.level ≤ levelInfo) :
    h.traceS fuel now src elapsedNs (fun _ => (sql, rows)) err
      = h.handle fuel
          { time := now, level := levelInfo, message := "", src := src,
            attrs := (match err with
                      | some e => [Attr.mk errKey (Value.anyErr e)]
                      | none => ([] : List Attr))
              ++ [Attr.mk "time" (Value.str (formatMs elapsedNs)),
                  Attr.mk "sql" (Value.str (if rows = -1 then "-" else sql))] }
  ∧ Logger.traceS ⟨h⟩ fuel now src elapsedNs (fun _ => (sql, rows)) err
      = h.traceS fuel now src elapsedNs (fun _ => (sql, rows)) err
  ∧ (∃ (whole : Int) (frac : Nat), frac < 1000
      ∧ formatMs elapsedNs = toString whole ++ "." ++ pad3 frac ++ "ms") := by
  have hg : h.enabled levelInfo = true := by
    simp only [Handler.enabled, decide_eq_true_eq]
    omega
  refine ⟨?_, rfl, ?_⟩
  · cases err <;> by_cases hrow : rows = -1 <;>
      simp [Handler.traceS, hg, hrow, Err]
  · refine ⟨((elapsedNs + 500).tdiv 1000).tdiv 1000,
      (((elapsedNs + 500).tdiv 1000).emod 1000).toNat, ?_, rfl⟩
    have h1 : ((elapsedNs + 500).tdiv 1000).emod 1000 < 1000 :=
      Int.emod_lt_of_pos _ (by norm_num)
    have h2 : 0 ≤ ((elapsedNs + 500).tdiv 1000).emod 1000 :=
      Int.emod_nonneg _ (by norm_num)
    omega

/-- Witness for C6 at a concrete handler, elapsed time, SQL text, row count
and error. -/
theorem trace_sql_time_err_witness :
    hNC.level ≤ levelInfo
  ∧ (hNC.traceS 1 tZero srcEmpty 12345000 (fun _ => ("SELECT 1", 3)) (some "boom")
      = hNC.handle 1
          { time := tZero, level := levelInfo, message := "", src := srcEmpty,
            attrs := [Attr.mk errKey (Value.anyErr "boom"),
                      Attr.mk "time" (Value.str (formatMs 12345000)),
                      Attr.mk "sql" (Value.str "SELECT 1")] }
    ∧ Logger.traceS ⟨hNC⟩ 1 tZero srcEmpty 12345000 (fun _ => ("SELECT 1", 3)) (some "boom")
      = hNC.traceS 1 tZero srcEmpty 12345000 (fun _ => ("SELECT 1", 3)) (some "boom")
    ∧ (∃ (whole : Int) (frac : Nat), frac < 1000
        ∧ formatMs 12345000 = toString whole ++ "." ++ pad3 frac ++ "ms")) :=
  ⟨by decide,
   trace_sql_time_err hNC 1 tZero srcEmpty 12345000 "SELECT 1" 3 (some "boom") (by decide)⟩

/-! ### C1 -/

/-- C1: Handle's buffer is exactly the concatenation, in fixed order, of the
timestamp, level, source, message blocks, the handler-bound attribute bytes,
and the record attributes; each emitted block ends in its single separator
space; an empty buffer means nothing is written and no error is returned;
and a non-empty buffer has its final trailing space replaced by a newline
before the write. -/
theorem handle_line_shape (h : Handler) (fuel : Nat) (r : Record)
    (hp : EndsSp h.attrsPre) :
    h.handleBuf fuel r
      = h.timeField r ++ h.levelField r ++ h.sourceField r ++ h.msgField r
        ++ h.attrsPre ++ h.appendAttrsF fuel r.attrs h.groupPre h.groups
  ∧ EndsSp (h.timeField r) ∧ EndsSp (h.levelField r) ∧ EndsSp (h.sourceField r)
  ∧ EndsSp (h.msgField r) ∧ EndsSp (h.appendAttrsF fuel r.attrs h.groupPre h.groups)
  ∧ (h.handleBuf fuel r = [] → h.handle fuel r = none
      ∧ ∀ write : Buf → Option String, h.handleWrite write fuel r = none)
  ∧ (h.handleBuf fuel r ≠ [] → ∃ p, h.handleBuf fuel r = p ++ [' ']
      ∧ h.handle fuel r = some (p ++ ['\n'])) := by
  refine ⟨rfl, timeField_endsSp h r, levelField_endsSp h r, sourceField_endsSp h r,
    msgField_endsSp h r, appendAttrsF_endsSp h fuel r.attrs h.groupPre h.groups, ?_, ?_⟩
  · intro hempty
    have hnone : h.handle fuel r = none := by
      unfold Handler.handle
      dsimp only
      rw [if_pos hempty]
    exact ⟨hnone, fun write => by simp [Handler.handleWrite, hnone]⟩
  · intro hne
    have hall : EndsSp (h.handleBuf fuel r) :=
      endsSp_append
        (endsSp_append
          (endsSp_append
            (endsSp_append (endsSp_append (timeField_endsSp h r) (levelField_endsSp h r))
              (sourceField_endsSp h r))
            (msgField_endsSp h r))
          hp)
        (appendAttrsF_endsSp h fuel r.attrs h.groupPre h.groups)
    rcases hall with h0 | ⟨p, hpeq⟩
    · exact absurd h0 hne
    · refine ⟨p, hpeq, ?_⟩
      unfold Handler.handle
      dsimp only
      rw [if_neg hne, hpeq, List.dropLast_concat]

/-- Witness for C1 at a concrete handler and record. -/
theorem handle_line_shape_witness :
    EndsSp hNC.attrsPre
  ∧ (hNC.handleBuf 1 rSample = [] → hNC.handle 1 rSample = none
      ∧ ∀ write : Buf → Option String, hNC.handleWrite write 1 rSample = none)
  ∧ (hNC.handleBuf 1 rSample ≠ [] → ∃ p, hNC.handleBuf 1 rSample = p ++ [' ']
      ∧ hNC.handle 1 rSample = some (p ++ ['\n'])) :=
  ⟨Or.inl rfl,
   (handle_line_shape hNC 1 rSample (Or.inl rfl)).2.2.2.2.2.2.1,
   (handle_line_shape hNC 1 rSample (Or.inl rfl)).2.2.2.2.2.2.2⟩

end Tint
